import Mathlib

set_option maxRecDepth 100000

/-!
Verification of the TRD document-section parser of the business-analyst web
application.  The parser appears twice in the source, once in
`frontend/src/components/EnhancedDocumentViewer.js` (`ProfessionalTRDFormatter`)
and once in `frontend/src/components/ReactFlowDiagram.js`
(`EditableTRDFormatter`); the two copies share the whole section/subsection/table
machinery and differ only in their `formatLine` content classifier.

Strings are modelled as `List Char`.  The JavaScript string primitives used by
the source (`trim`, `split`, `includes`, `startsWith`, `toUpperCase`,
`toLowerCase`, template interpolation of counters, and the handful of anchored
regular expressions) are each given an executable model below; `toUpperCase` /
`toLowerCase` are modelled by the ASCII `Char.toUpper` / `Char.toLower` and the
JS whitespace class by `Char.isWhitespace` (the two agree on ASCII input).
-/

namespace BA

/-- JS `String.prototype.trim`: strip whitespace from both ends. -/
def jsTrim (s : List Char) : List Char :=
  ((s.dropWhile Char.isWhitespace).reverse.dropWhile Char.isWhitespace).reverse

/-- JS `s.split(c)` for a one-character separator; `"".split(c)` gives `[""]`. -/
def splitOnChar (c : Char) : List Char → List (List Char)
  | [] => [[]]
  | x :: xs =>
    match splitOnChar c xs with
    | [] => [[]]
    | h :: t => if x = c then [] :: h :: t else (x :: h) :: t

/-- Boolean list-prefix test, modelling JS `String.prototype.startsWith`. -/
def isPrefixL : List Char → List Char → Bool
  | [], _ => true
  | _ :: _, [] => false
  | a :: as, b :: bs => a = b && isPrefixL as bs

/-- JS `String.prototype.includes`: substring occurrence. -/
def containsSub (n : List Char) : List Char → Bool
  | [] => isPrefixL n []
  | c :: cs => isPrefixL n (c :: cs) || containsSub n cs

/-- JS `toUpperCase` (ASCII model). -/
def toUpperL (s : List Char) : List Char := s.map Char.toUpper

/-- JS `toLowerCase` (ASCII model). -/
def toLowerL (s : List Char) : List Char := s.map Char.toLower

/-- Decimal digit characters of a natural number (fuel-based structural
recursion, so terms reduce inside the kernel); models the template
interpolation of the JS counters. -/
def natDigitsAux : Nat → Nat → List Char
  | 0, _ => []
  | fuel + 1, n =>
    if n < 10 then [Char.ofNat (48 + n)]
    else natDigitsAux fuel (n / 10) ++ [Char.ofNat (48 + n % 10)]

def natDigits (n : Nat) : List Char := natDigitsAux (n + 1) n

/-- Model of the JS test `/^\d+\./.test(line)`. -/
def testNumbered (l : List Char) : Bool :=
  match l with
  | c :: _ =>
    c.isDigit &&
      (match l.dropWhile Char.isDigit with
       | '.' :: _ => true
       | _ => false)
  | [] => false

/-- Model of `line.match(/^\d+/)`; `none` models a `null` match result. -/
def matchLeadingDigits (l : List Char) : Option (List Char) :=
  let ds := l.takeWhile Char.isDigit
  if ds.isEmpty then none else some ds

/-- Model of `line.replace(/^\d+\.\s*/, '')`. -/
def stripNumbered (l : List Char) : List Char :=
  if testNumbered l then ((l.dropWhile Char.isDigit).drop 1).dropWhile Char.isWhitespace
  else l

/-- Model of `line.replace(/^[-*]\s*/, '')`. -/
def stripBullet (l : List Char) : List Char :=
  match l with
  | '-' :: rest => rest.dropWhile Char.isWhitespace
  | '*' :: rest => rest.dropWhile Char.isWhitespace
  | _ => l

/-- The line starts with `tag` followed by at least one digit. -/
def startsReqTag (tag : List Char) (l : List Char) : Bool :=
  isPrefixL tag l &&
    (match l.drop tag.length with
     | c :: _ => c.isDigit
     | [] => false)

/-- Model of the JS test `/^REQ-\d+|^FR-\d+|^NFR-\d+/.test(line)`. -/
def testReq (l : List Char) : Bool :=
  startsReqTag "REQ-".toList l || startsReqTag "FR-".toList l ||
    startsReqTag "NFR-".toList l

/-- Model of `line.match(/^[A-Z]+-\d+/)`; `none` models a `null` match result. -/
def matchReqId (l : List Char) : Option (List Char) :=
  let us := l.takeWhile Char.isUpper
  if us.isEmpty then none
  else
    match l.drop us.length with
    | '-' :: rest =>
      let ds := rest.takeWhile Char.isDigit
      if ds.isEmpty then none else some (us ++ '-' :: ds)
    | _ => none

/-- Model of `line.replace(/^[A-Z]+-\d+:?\s*/, '')`. -/
def stripReqId (l : List Char) : List Char :=
  match matchReqId l with
  | none => l
  | some m =>
    let r := l.drop m.length
    let r1 := match r with
              | ':' :: t => t
              | _ => r
    r1.dropWhile Char.isWhitespace

/-- Model of `line.replace(/^#+\s*/, '')`. -/
def stripHashes (l : List Char) : List Char :=
  match l with
  | '#' :: _ => (l.dropWhile (fun c => c = '#')).dropWhile Char.isWhitespace
  | _ => l

/-- Model of `line.replace(/\*\*/g, '')` (all non-overlapping occurrences,
left to right). -/
def removeStars : List Char → List Char
  | '*' :: '*' :: rest => removeStars rest
  | c :: rest => c :: removeStars rest
  | [] => []

/-- Model of `line.replace(':', '')` (a string pattern replaces only the first
occurrence in JS). -/
def removeFirstColon : List Char → List Char
  | [] => []
  | ':' :: rest => rest
  | c :: rest => c :: removeFirstColon rest

/-- A markdown table item accumulated by the parser. -/
structure TableData where
  headers : List (List Char)
  rows : List (List (List Char))
  rawContent : List (List Char)
deriving DecidableEq, Repr

/-- Result of the per-variant `formatLine` classifiers.  Fields absent on the
JS object produced by a given branch are modelled as `none`. -/
structure FormattedLine where
  type : String
  content : List Char
  id : Option (List Char) := none
  number : Option (List Char) := none
deriving DecidableEq, Repr

/-- A content-list entry: either an accumulated table or a formatted line. -/
inductive ContentItem where
  | table : TableData → ContentItem
  | line : FormattedLine → ContentItem
deriving DecidableEq, Repr

structure Subsection where
  id : List Char
  title : List Char
  number : List Char
  content : List ContentItem
deriving DecidableEq, Repr

structure Section where
  id : List Char
  title : List Char
  type : String
  number : Nat
  content : List ContentItem
  subsections : List Subsection
deriving DecidableEq, Repr

/-- `getSectionType` (textually identical in the two source components). -/
def getSectionType (line : List Char) : String :=
  let lowerLine := toLowerL line
  if containsSub "requirement".toList lowerLine || containsSub "functional".toList lowerLine then
    "requirements"
  else if containsSub "security".toList lowerLine || containsSub "authentication".toList lowerLine then
    "security"
  else if containsSub "performance".toList lowerLine || containsSub "scalability".toList lowerLine then
    "performance"
  else if containsSub "interface".toList lowerLine || containsSub "ui".toList lowerLine ||
      containsSub "user".toList lowerLine then
    "interface"
  else if containsSub "data".toList lowerLine || containsSub "database".toList lowerLine then
    "data"
  else if containsSub "integration".toList lowerLine || containsSub "api".toList lowerLine then
    "integration"
  else if containsSub "assumption".toList lowerLine || containsSub "constraint".toList lowerLine then
    "assumptions"
  else "general"

/-- `formatLine` of `ProfessionalTRDFormatter` (EnhancedDocumentViewer.js).
The two `Option.getD []` correspond to `match(...)[0]` dereferences that the
guards keep from ever seeing a null match (proved for the Option-threaded
variant below). -/
def formatLineP (line : List Char) : FormattedLine :=
  if testNumbered line then
    { type := "numbered", content := stripNumbered line,
      number := some ((matchLeadingDigits line).getD []) }
  else if isPrefixL "- ".toList line || isPrefixL "* ".toList line then
    { type := "bullet", content := stripBullet line }
  else if testReq line then
    { type := "requirement", id := some ((matchReqId line).getD []),
      content := stripReqId line }
  else
    { type := "text", content := line }

/-- `formatLine` of `EditableTRDFormatter` (ReactFlowDiagram.js).  The bold
test repeats `line.includes('**')` twice, exactly as the source does. -/
def formatLineE (line : List Char) : FormattedLine :=
  if testNumbered line then { type := "numbered-list", content := line }
  else if isPrefixL "- ".toList line || isPrefixL "* ".toList line then
    { type := "bullet-list", content := line }
  else if isPrefixL "```".toList line then { type := "code-block", content := line }
  else if containsSub "**".toList line && containsSub "**".toList line then
    { type := "bold-text", content := line }
  else { type := "text", content := line }

/-- The mutable locals of `parseContent`, gathered into one state record.  In
the JS source the open subsection object is aliased inside
`currentSection.subsections`; the embedding holds it out in `currentSubsection`
and appends it when it can no longer receive content (`closeSubsection`). -/
structure PState where
  sections : List Section
  currentSection : Option Section
  currentSubsection : Option Subsection
  sectionCounter : Nat
  subsectionCounter : Nat
  currentTable : Option TableData
deriving DecidableEq, Repr

def initState : PState :=
  { sections := [], currentSection := none, currentSubsection := none,
    sectionCounter := 1, subsectionCounter := 1, currentTable := none }

/-- Append a content item to the open subsection, else to the open section,
else drop it (the repeated `if (currentSubsection) ... else if
(currentSection) ...` blocks of the source). -/
def pushContent (st : PState) (item : ContentItem) : PState :=
  match st.currentSubsection with
  | some sub =>
    { st with currentSubsection := some { sub with content := sub.content ++ [item] } }
  | none =>
    match st.currentSection with
    | some sec =>
      { st with currentSection := some { sec with content := sec.content ++ [item] } }
    | none => st

/-- Materialise the held-out open subsection into its section's list. -/
def closeSubsection (st : PState) : PState :=
  match st.currentSubsection with
  | none => st
  | some sub =>
    match st.currentSection with
    | some sec =>
      { st with
        currentSection := some { sec with subsections := sec.subsections ++ [sub] },
        currentSubsection := none }
    | none => { st with currentSubsection := none }

/-- `// End of table, add it to content and reset`. -/
def closeTable (st : PState) : PState :=
  match st.currentTable with
  | none => st
  | some tbl => { pushContent st (ContentItem.table tbl) with currentTable := none }

/-- `line.startsWith('##') || line.startsWith('**') || line === line.toUpperCase() && line.length > 5`. -/
def isSectionHeader (line : List Char) : Bool :=
  isPrefixL "##".toList line || isPrefixL "**".toList line ||
    (decide (line = toUpperL line) && decide (line.length > 5))

/-- `line.startsWith('###') || (line.includes(':') && line.length < 100)`. -/
def isSubsectionHeader (line : List Char) : Bool :=
  isPrefixL "###".toList line ||
    (containsSub ":".toList line && decide (line.length < 100))

/-- `line.includes('|') && line.split('|').length > 2`. -/
def isTableRowB (line : List Char) : Bool :=
  containsSub "|".toList line && decide ((splitOnChar '|' line).length > 2)

/-- Close the previous section (push it, advance the counters, reset the
subsection counter) and open the next one. -/
def startSectionCore (st1 : PState) (line : List Char) : PState :=
  let st2 :=
    match st1.currentSection with
    | some sec =>
      { st1 with sections := st1.sections ++ [sec], currentSection := none,
                 sectionCounter := st1.sectionCounter + 1, subsectionCounter := 1 }
    | none => st1
  { st2 with
    currentSection := some
      { id := "section-".toList ++ natDigits st2.sectionCounter,
        title := removeStars (stripHashes line),
        type := getSectionType line,
        number := st2.sectionCounter,
        content := [], subsections := [] },
    currentSubsection := none }

/-- The main-section-header branch of the loop body. -/
def startSection (st : PState) (line : List Char) : PState :=
  startSectionCore (closeSubsection st) line

/-- Open a new subsection using the running counters, and bump the subsection
counter. -/
def startSubsectionCore (st1 : PState) (line : List Char) : PState :=
  { st1 with
    currentSubsection := some
      { id := "subsection-".toList ++ natDigits st1.sectionCounter ++
                '-' :: natDigits st1.subsectionCounter,
        title := removeFirstColon (stripHashes line),
        number := natDigits st1.sectionCounter ++ '.' :: natDigits st1.subsectionCounter,
        content := [] },
    subsectionCounter := st1.subsectionCounter + 1 }

/-- The subsection-header branch of the loop body (a no-op when no section is
open: the `if (currentSection)` guard of the source). -/
def startSubsection (st : PState) (line : List Char) : PState :=
  match st.currentSection with
  | none => st
  | some _ => startSubsectionCore (closeSubsection st) line

/-- The new in-progress table after a table row: push the raw line onto
`rawContent`, then either skip a separator row (`---`), set the header row, or
append a data row. -/
def tableUpd (cur : Option TableData) (line : List Char) : TableData :=
  let tbl0 := cur.getD { headers := [], rows := [], rawContent := [] }
  let cells := ((splitOnChar '|' line).map jsTrim).filter (fun c => !c.isEmpty)
  let tbl := { tbl0 with rawContent := tbl0.rawContent ++ [line] }
  if containsSub "---".toList line then tbl
  else if tbl.headers.isEmpty then { tbl with headers := cells }
  else { tbl with rows := tbl.rows ++ [cells] }

/-- The table-row branch of the loop body: only `currentTable` changes. -/
def tableStep (st : PState) (line : List Char) : PState :=
  { st with currentTable := some (tableUpd st.currentTable line) }

/-- Header/content dispatch on a non-table line (any open table has already
been flushed when this runs). -/
def classifyLine (fmt : List Char → FormattedLine) (st : PState) (line : List Char) : PState :=
  if isSectionHeader line then startSection st line
  else if isSubsectionHeader line then startSubsection st line
  else pushContent st (ContentItem.line (fmt line))

/-- One iteration of the `for` loop of `parseContent`, on the raw line. -/
def step (fmt : List Char → FormattedLine) (st : PState) (raw : List Char) : PState :=
  let line := jsTrim raw
  if line.isEmpty then st
  else if isTableRowB line then tableStep st line
  else classifyLine fmt (closeTable st) line

/-- The post-loop flushes: the pending table, then the open section. -/
def finalize (st : PState) : List Section :=
  let st1 := closeTable st
  let st2 := closeSubsection st1
  match st2.currentSection with
  | some sec => st2.sections ++ [sec]
  | none => st2.sections

/-- `parseContent`, parameterised by the `formatLine` variant.  `none` models a
null/undefined argument; the falsy guard `if (!content) return []` also
catches the empty string. -/
def parseContentWith (fmt : List Char → FormattedLine) : Option (List Char) → List Section
  | none => []
  | some s =>
    if s.isEmpty then []
    else finalize ((splitOnChar '\n' s).foldl (step fmt) initState)

/-- `parseContent` of `ProfessionalTRDFormatter` (EnhancedDocumentViewer.js). -/
def parseContentP : Option (List Char) → List Section :=
  parseContentWith formatLineP

/-- `parseContent` of `EditableTRDFormatter` (ReactFlowDiagram.js). -/
def parseContentE : Option (List Char) → List Section :=
  parseContentWith formatLineE

/-- `formatLineP` with the two unchecked `match(...)[0]` dereferences made
explicit: `none` models the `TypeError` a null match would raise. -/
def formatLinePT (line : List Char) : Option FormattedLine :=
  if testNumbered line then
    match matchLeadingDigits line with
    | none => none
    | some n => some { type := "numbered", content := stripNumbered line, number := some n }
  else if isPrefixL "- ".toList line || isPrefixL "* ".toList line then
    some { type := "bullet", content := stripBullet line }
  else if testReq line then
    match matchReqId line with
    | none => none
    | some m => some { type := "requirement", id := some m, content := stripReqId line }
  else some { type := "text", content := line }

/-- `step formatLineP` threaded through `Option`, propagating the potential
exception of `formatLinePT`. -/
def stepT (st : PState) (raw : List Char) : Option PState :=
  let line := jsTrim raw
  if line.isEmpty then some st
  else if isTableRowB line then some (tableStep st line)
  else
    let st1 := closeTable st
    if isSectionHeader line then some (startSection st1 line)
    else if isSubsectionHeader line then some (startSubsection st1 line)
    else (formatLinePT line).map (fun f => pushContent st1 (ContentItem.line f))

/-- `parseContentP` with exceptions modelled: `none` would mean a thrown
`TypeError` escaping `parseContent`. -/
def parseContentPT : Option (List Char) → Option (List Section)
  | none => some []
  | some s =>
    if s.isEmpty then some []
    else ((splitOnChar '\n' s).foldlM stepT initState).map finalize

/-! ### Specification-side definitions

`specSectionType` restates the spec's description of section-type inference
("keyword match on the raw section title, case-insensitive, first match wins
in this order") as an explicit ordered dispatch list, to be compared with the
source's `getSectionType`. -/

def keywordTable : List (List String × String) :=
  [(["requirement", "functional"], "requirements"),
   (["security", "authentication"], "security"),
   (["performance", "scalability"], "performance"),
   (["interface", "ui", "user"], "interface"),
   (["data", "database"], "data"),
   (["integration", "api"], "integration"),
   (["assumption", "constraint"], "assumptions")]

/-- First keyword match in the fixed order of `keywordTable`, default
`"general"`. -/
def specSectionType (line : List Char) : String :=
  let lowerLine := toLowerL line
  ((keywordTable.find? fun p =>
      p.1.any fun k => containsSub k.toList lowerLine).map Prod.snd).getD "general"

/-! ### Skeletons

The skeleton of a parse result forgets how individual content lines were
classified (every `ContentItem.line` is collapsed to a fixed placeholder) but
keeps the whole section/subsection structure, all titles, ids, types and
numbers, and every table item verbatim.  The two formatter variants agree
exactly up to skeletons. -/

/-- The placeholder classifier used to state skeleton equality. -/
def skelFmt : List Char → FormattedLine := fun _ => { type := "", content := [] }

def skelItem : ContentItem → ContentItem
  | ContentItem.table t => ContentItem.table t
  | ContentItem.line _ => ContentItem.line { type := "", content := [] }

def skelSub (s : Subsection) : Subsection :=
  { s with content := s.content.map skelItem }

def skelSec (s : Section) : Section :=
  { s with content := s.content.map skelItem, subsections := s.subsections.map skelSub }

def skelSecs (l : List Section) : List Section := l.map skelSec

def stSkel (st : PState) : PState :=
  { st with sections := skelSecs st.sections,
            currentSection := st.currentSection.map skelSec,
            currentSubsection := st.currentSubsection.map skelSub }

/-! ### Numbering checkers (executable) -/

/-- Subsections of the section numbered `n` carry numbers `n.i`, `n.(i+1)`, …
in list order. -/
def subNumbersOkAux (n : Nat) (i : Nat) : List Subsection → Bool
  | [] => true
  | s :: rest =>
    decide (s.number = natDigits n ++ '.' :: natDigits i) && subNumbersOkAux n (i + 1) rest

/-- Sections carry numbers `i`, `i+1`, … in list order, each with correctly
numbered subsections. -/
def secNumbersOkAux (i : Nat) : List Section → Bool
  | [] => true
  | s :: rest =>
    decide (s.number = i) && subNumbersOkAux i 1 s.subsections && secNumbersOkAux (i + 1) rest

/-- Contiguous 1-based section numbers with per-section `n.i` subsection
numbers restarting at `n.1`. -/
def numberingOk (secs : List Section) : Bool := secNumbersOkAux 1 secs

/-- Relation between the open-section/open-subsection cursors and the counters:
`m` is the number of already-closed sections. -/
def SecInv (m : Nat) (osec : Option Section) (osub : Option Subsection)
    (sc subc : Nat) : Prop :=
  match osec with
  | none => m = 0 ∧ sc = 1 ∧ osub = none ∧ subc = 1
  | some sec =>
    sec.number = m + 1 ∧ sc = m + 1 ∧
    subNumbersOkAux sec.number 1 sec.subsections = true ∧
    (match osub with
     | none => subc = sec.subsections.length + 1
     | some sub =>
       subc = sec.subsections.length + 2 ∧
       sub.number = natDigits sec.number ++ '.' :: natDigits (sec.subsections.length + 1))

/-- The numbering invariant maintained by the parser state across the loop. -/
def NumInv (st : PState) : Prop :=
  secNumbersOkAux 1 st.sections = true ∧
  SecInv st.sections.length st.currentSection st.currentSubsection
    st.sectionCounter st.subsectionCounter


/-! ### Helper lemmas -/


theorem isPrefixL_iff (p l : List Char) : isPrefixL p l = true ↔ ∃ t, l = p ++ t := by
  induction p generalizing l with
  | nil =>
    simp [isPrefixL]
  | cons a as ih =>
    cases l with
    | nil => simp [isPrefixL]
    | cons b bs =>
      simp only [isPrefixL, Bool.and_eq_true, decide_eq_true_eq, ih, List.cons_append,
        List.cons.injEq]
      constructor
      · rintro ⟨rfl, t, rfl⟩
        exact ⟨t, rfl, rfl⟩
      · rintro ⟨t, rfl, rfl⟩
        exact ⟨rfl, t, rfl⟩

theorem matchLeadingDigits_of_testNumbered (l : List Char) (h : testNumbered l = true) :
    matchLeadingDigits l = some (l.takeWhile Char.isDigit) := by
  cases l with
  | nil => simp [testNumbered] at h
  | cons c cs =>
    simp only [testNumbered, Bool.and_eq_true] at h
    simp [matchLeadingDigits, List.takeWhile_cons_of_pos h.1]

theorem matchReqId_of_startsReqTagREQ (l : List Char)
    (h : startsReqTag "REQ-".toList l = true) : (matchReqId l).isSome = true := by
  simp only [startsReqTag, Bool.and_eq_true] at h
  obtain ⟨hp, hd⟩ := h
  obtain ⟨t, rfl⟩ := (isPrefixL_iff _ _).mp hp
  cases t with
  | nil => simp at hd
  | cons c t' =>
    simp only [show ("REQ-".toList : List Char) = ['R', 'E', 'Q', '-'] from rfl] at hd ⊢
    simp only [List.cons_append, List.nil_append, List.length_cons, List.length_nil,
      List.drop_succ_cons, List.drop_zero] at hd
    have hc : c.isDigit = true := by
      revert hd
      simp [List.drop]
    simp [matchReqId, List.takeWhile_cons_of_pos, hc,
      (show Char.isUpper 'R' = true from rfl), (show Char.isUpper 'E' = true from rfl),
      (show Char.isUpper 'Q' = true from rfl), (show Char.isUpper '-' = false from rfl)]


theorem matchReqId_of_startsReqTagFR (l : List Char)
    (h : startsReqTag "FR-".toList l = true) : (matchReqId l).isSome = true := by
  simp only [startsReqTag, Bool.and_eq_true] at h
  obtain ⟨hp, hd⟩ := h
  obtain ⟨t, rfl⟩ := (isPrefixL_iff _ _).mp hp
  cases t with
  | nil => simp at hd
  | cons c t' =>
    simp only [show ("FR-".toList : List Char) = ['F', 'R', '-'] from rfl] at hd ⊢
    have hc : c.isDigit = true := by
      revert hd
      simp [List.drop]
    simp [matchReqId, List.takeWhile_cons_of_pos, hc,
      (show Char.isUpper 'F' = true from rfl), (show Char.isUpper 'R' = true from rfl),
      (show Char.isUpper '-' = false from rfl)]

theorem matchReqId_of_startsReqTagNFR (l : List Char)
    (h : startsReqTag "NFR-".toList l = true) : (matchReqId l).isSome = true := by
  simp only [startsReqTag, Bool.and_eq_true] at h
  obtain ⟨hp, hd⟩ := h
  obtain ⟨t, rfl⟩ := (isPrefixL_iff _ _).mp hp
  cases t with
  | nil => simp at hd
  | cons c t' =>
    simp only [show ("NFR-".toList : List Char) = ['N', 'F', 'R', '-'] from rfl] at hd ⊢
    have hc : c.isDigit = true := by
      revert hd
      simp [List.drop]
    simp [matchReqId, List.takeWhile_cons_of_pos, hc,
      (show Char.isUpper 'N' = true from rfl), (show Char.isUpper 'F' = true from rfl),
      (show Char.isUpper 'R' = true from rfl), (show Char.isUpper '-' = false from rfl)]

theorem matchReqId_isSome_of_testReq (l : List Char) (h : testReq l = true) :
    (matchReqId l).isSome = true := by
  simp only [testReq, Bool.or_eq_true] at h
  rcases h with (h | h) | h
  · exact matchReqId_of_startsReqTagREQ l h
  · exact matchReqId_of_startsReqTagFR l h
  · exact matchReqId_of_startsReqTagNFR l h

theorem formatLinePT_eq (line : List Char) : formatLinePT line = some (formatLineP line) := by
  unfold formatLinePT formatLineP
  by_cases h1 : testNumbered line = true
  · rw [matchLeadingDigits_of_testNumbered line h1]
    simp [h1, matchLeadingDigits_of_testNumbered line h1]
  · by_cases h2a : isPrefixL ['-', ' '] line = true
    · simp [h1, h2a]
    · by_cases h2b : isPrefixL ['*', ' '] line = true
      · simp [h1, h2a, h2b]
      · by_cases h3 : testReq line = true
        · obtain ⟨m, hm⟩ := Option.isSome_iff_exists.mp (matchReqId_isSome_of_testReq line h3)
          simp [h1, h2a, h2b, h3, hm]
        · simp [h1, h2a, h2b, h3]

theorem stepT_eq (st : PState) (raw : List Char) : stepT st raw = some (step formatLineP st raw) := by
  unfold stepT step classifyLine
  by_cases h0 : (jsTrim raw).isEmpty
  · simp [h0]
  · by_cases h1 : isTableRowB (jsTrim raw)
    · simp [h0, h1]
    · by_cases h2 : isSectionHeader (jsTrim raw)
      · simp [h0, h1, h2]
      · by_cases h3 : isSubsectionHeader (jsTrim raw)
        · simp [h0, h1, h2, h3]
        · simp [h0, h1, h2, h3, formatLinePT_eq]

theorem foldlM_stepT_eq (ls : List (List Char)) (st : PState) :
    List.foldlM stepT st ls = some (List.foldl (step formatLineP) st ls) := by
  induction ls generalizing st with
  | nil => rfl
  | cons a as ih => simp [List.foldlM, List.foldl, stepT_eq, ih]

theorem parseContentPT_eq (c : Option (List Char)) :
    parseContentPT c = some (parseContentP c) := by
  cases c with
  | none => rfl
  | some s =>
    by_cases h : s.isEmpty
    · simp [parseContentPT, parseContentP, parseContentWith, h]
    · simp [parseContentPT, parseContentP, parseContentWith, h, foldlM_stepT_eq]



theorem stSkel_currentTable (st : PState) : (stSkel st).currentTable = st.currentTable := rfl

theorem pushContent_skel (st : PState) (item : ContentItem) :
    stSkel (pushContent st item) = pushContent (stSkel st) (skelItem item) := by
  unfold pushContent stSkel
  cases hsub : st.currentSubsection with
  | some sub => simp [skelSub, List.map_append]
  | none =>
    cases hsec : st.currentSection with
    | some sec => simp [skelSec, List.map_append]
    | none => simp [hsub, hsec]

theorem closeTable_skel (st : PState) :
    stSkel (closeTable st) = closeTable (stSkel st) := by
  unfold closeTable
  rw [stSkel_currentTable]
  cases htbl : st.currentTable with
  | none => rfl
  | some tbl =>
    show { stSkel (pushContent st (ContentItem.table tbl)) with currentTable := none } =
      { pushContent (stSkel st) (ContentItem.table tbl) with currentTable := none }
    rw [pushContent_skel]
    rfl

theorem closeSubsection_skel (st : PState) :
    stSkel (closeSubsection st) = closeSubsection (stSkel st) := by
  unfold closeSubsection
  have h1 : (stSkel st).currentSubsection = st.currentSubsection.map skelSub := rfl
  have h2 : (stSkel st).currentSection = st.currentSection.map skelSec := rfl
  rw [h1, h2]
  cases hsub : st.currentSubsection with
  | none => rfl
  | some sub =>
    cases hsec : st.currentSection with
    | none => simp [stSkel]
    | some sec => simp [stSkel, skelSec, List.map_append]

theorem tableStep_skel (st : PState) (line : List Char) :
    stSkel (tableStep st line) = tableStep (stSkel st) line := rfl

theorem startSectionCore_skel (st1 : PState) (line : List Char) :
    stSkel (startSectionCore st1 line) = startSectionCore (stSkel st1) line := by
  unfold startSectionCore
  have h2 : (stSkel st1).currentSection = st1.currentSection.map skelSec := rfl
  rw [h2]
  cases hsec : st1.currentSection with
  | none => simp [stSkel, skelSec]
  | some sec => simp [stSkel, skelSecs, skelSec, List.map_append]

theorem startSection_skel (st : PState) (line : List Char) :
    stSkel (startSection st line) = startSection (stSkel st) line := by
  unfold startSection
  rw [← closeSubsection_skel, startSectionCore_skel]

theorem startSubsectionCore_skel (st1 : PState) (line : List Char) :
    stSkel (startSubsectionCore st1 line) = startSubsectionCore (stSkel st1) line := by
  unfold startSubsectionCore
  simp [stSkel, skelSub]

theorem startSubsection_skel (st : PState) (line : List Char) :
    stSkel (startSubsection st line) = startSubsection (stSkel st) line := by
  unfold startSubsection
  have h2 : (stSkel st).currentSection = st.currentSection.map skelSec := rfl
  rw [h2]
  cases hsec : st.currentSection with
  | none => rfl
  | some sec =>
    rw [← closeSubsection_skel, startSubsectionCore_skel]
    rfl

theorem classifyLine_skel (f : List Char → FormattedLine) (st : PState) (line : List Char) :
    stSkel (classifyLine f st line) = classifyLine skelFmt (stSkel st) line := by
  unfold classifyLine
  by_cases h1 : isSectionHeader line = true
  · simp [h1, startSection_skel]
  · by_cases h2 : isSubsectionHeader line = true
    · simp [h1, h2, startSubsection_skel]
    · simp [h1, h2, pushContent_skel]
      rfl

theorem step_skel (f : List Char → FormattedLine) (st : PState) (raw : List Char) :
    stSkel (step f st raw) = step skelFmt (stSkel st) raw := by
  unfold step
  by_cases h0 : (jsTrim raw).isEmpty = true
  · simp [h0]
  · by_cases h1 : isTableRowB (jsTrim raw) = true
    · simp [h0, h1, tableStep_skel]
    · simp [h0, h1, ← closeTable_skel, classifyLine_skel]

theorem foldl_step_skel (f : List Char → FormattedLine) (ls : List (List Char)) (st : PState) :
    stSkel (List.foldl (step f) st ls) = List.foldl (step skelFmt) (stSkel st) ls := by
  induction ls generalizing st with
  | nil => rfl
  | cons a as ih => simp [List.foldl, ih, step_skel]

theorem finalize_skel (st : PState) :
    skelSecs (finalize st) = finalize (stSkel st) := by
  have key : ∀ st2 : PState,
      skelSecs (match st2.currentSection with
                | some sec => st2.sections ++ [sec]
                | none => st2.sections) =
        (match (stSkel st2).currentSection with
         | some sec => (stSkel st2).sections ++ [sec]
         | none => (stSkel st2).sections) := by
    intro st2
    have h2 : (stSkel st2).currentSection = st2.currentSection.map skelSec := rfl
    rw [h2]
    cases hsec : st2.currentSection with
    | none => rfl
    | some sec => simp [stSkel, skelSecs, List.map_append]
  show skelSecs
      (match (closeSubsection (closeTable st)).currentSection with
       | some sec => (closeSubsection (closeTable st)).sections ++ [sec]
       | none => (closeSubsection (closeTable st)).sections) =
    (match (closeSubsection (closeTable (stSkel st))).currentSection with
     | some sec => (closeSubsection (closeTable (stSkel st))).sections ++ [sec]
     | none => (closeSubsection (closeTable (stSkel st))).sections)
  rw [← closeTable_skel, ← closeSubsection_skel]
  exact key (closeSubsection (closeTable st))

theorem parseContentWith_skel (f g : List Char → FormattedLine) (c : Option (List Char)) :
    skelSecs (parseContentWith f c) = skelSecs (parseContentWith g c) := by
  cases c with
  | none => rfl
  | some s =>
    by_cases h : s.isEmpty
    · simp [parseContentWith, h]
    · have e1 : parseContentWith f (some s) =
          finalize (List.foldl (step f) initState (splitOnChar '\n' s)) := by
        simp [parseContentWith, h]
      have e2 : parseContentWith g (some s) =
          finalize (List.foldl (step g) initState (splitOnChar '\n' s)) := by
        simp [parseContentWith, h]
      rw [e1, e2, finalize_skel, finalize_skel, foldl_step_skel, foldl_step_skel]



theorem subNumbersOkAux_append (n : Nat) (s : Subsection) (l : List Subsection) (i : Nat) :
    subNumbersOkAux n i (l ++ [s]) =
      (subNumbersOkAux n i l &&
        decide (s.number = natDigits n ++ '.' :: natDigits (i + l.length))) := by
  induction l generalizing i with
  | nil => simp [subNumbersOkAux]
  | cons a as ih =>
    have hidx : i + 1 + as.length = i + (as.length + 1) := by omega
    simp only [List.cons_append, subNumbersOkAux, List.append_eq]
    rw [ih, hidx, List.length_cons, Bool.and_assoc]

theorem secNumbersOkAux_append (s : Section) (l : List Section) (i : Nat) :
    secNumbersOkAux i (l ++ [s]) =
      (secNumbersOkAux i l && decide (s.number = i + l.length) &&
        subNumbersOkAux (i + l.length) 1 s.subsections) := by
  induction l generalizing i with
  | nil => simp [secNumbersOkAux, Bool.and_assoc]
  | cons a as ih =>
    have hidx : i + 1 + as.length = i + (as.length + 1) := by omega
    simp only [List.cons_append, secNumbersOkAux, List.append_eq]
    rw [ih, hidx, List.length_cons]
    simp only [Bool.and_assoc]

theorem closeSubsection_sections (st : PState) :
    (closeSubsection st).sections = st.sections := by
  unfold closeSubsection
  cases st.currentSubsection with
  | none => rfl
  | some sub => cases st.currentSection with
    | none => rfl
    | some sec => rfl

theorem closeSubsection_sectionCounter (st : PState) :
    (closeSubsection st).sectionCounter = st.sectionCounter := by
  unfold closeSubsection
  cases st.currentSubsection with
  | none => rfl
  | some sub => cases st.currentSection with
    | none => rfl
    | some sec => rfl

theorem closeSubsection_subsectionCounter (st : PState) :
    (closeSubsection st).subsectionCounter = st.subsectionCounter := by
  unfold closeSubsection
  cases st.currentSubsection with
  | none => rfl
  | some sub => cases st.currentSection with
    | none => rfl
    | some sec => rfl

theorem closeSubsection_currentSubsection (st : PState) :
    (closeSubsection st).currentSubsection = none := by
  unfold closeSubsection
  cases hsub : st.currentSubsection with
  | none => simpa using hsub
  | some sub => cases st.currentSection with
    | none => rfl
    | some sec => rfl

theorem pushContent_of_sub (st : PState) (sub : Subsection) (item : ContentItem)
    (hsub : st.currentSubsection = some sub) :
    pushContent st item =
      { st with currentSubsection := some { sub with content := sub.content ++ [item] } } := by
  unfold pushContent
  rw [hsub]

theorem pushContent_of_sec (st : PState) (sec : Section) (item : ContentItem)
    (hsub : st.currentSubsection = none) (hsec : st.currentSection = some sec) :
    pushContent st item =
      { st with currentSection := some { sec with content := sec.content ++ [item] } } := by
  unfold pushContent
  rw [hsub, hsec]

theorem pushContent_of_none (st : PState) (item : ContentItem)
    (hsub : st.currentSubsection = none) (hsec : st.currentSection = none) :
    pushContent st item = st := by
  unfold pushContent
  rw [hsub, hsec]

theorem numInv_pushContent (st : PState) (item : ContentItem) (h : NumInv st) :
    NumInv (pushContent st item) := by
  obtain ⟨h1, h2⟩ := h
  cases hsub : st.currentSubsection with
  | some sub =>
    rw [pushContent_of_sub st sub item hsub]
    refine ⟨h1, ?_⟩
    unfold SecInv at h2 ⊢
    cases hsec : st.currentSection with
    | none =>
      rw [hsec, hsub] at h2
      exact absurd h2.2.2.1 (by simp)
    | some sec =>
      rw [hsec, hsub] at h2
      simp only [hsec]
      exact ⟨h2.1, h2.2.1, h2.2.2.1, h2.2.2.2.1, h2.2.2.2.2⟩
  | none =>
    cases hsec : st.currentSection with
    | none =>
      rw [pushContent_of_none st item hsub hsec]
      exact ⟨h1, h2⟩
    | some sec =>
      rw [pushContent_of_sec st sec item hsub hsec]
      refine ⟨h1, ?_⟩
      unfold SecInv at h2 ⊢
      rw [hsec, hsub] at h2
      simp only [hsub]
      exact ⟨h2.1, h2.2.1, h2.2.2.1, h2.2.2.2⟩


theorem numInv_closeTable (st : PState) (h : NumInv st) : NumInv (closeTable st) := by
  unfold closeTable
  cases htbl : st.currentTable with
  | none => exact h
  | some tbl => exact numInv_pushContent st (ContentItem.table tbl) h

theorem numInv_closeSubsection (st : PState) (h : NumInv st) : NumInv (closeSubsection st) := by
  obtain ⟨h1, h2⟩ := h
  unfold closeSubsection
  cases hsub : st.currentSubsection with
  | none => exact ⟨h1, h2⟩
  | some sub =>
    cases hsec : st.currentSection with
    | none =>
      unfold SecInv at h2
      rw [hsec, hsub] at h2
      exact absurd h2.2.2.1 (by simp)
    | some sec =>
      refine ⟨h1, ?_⟩
      unfold SecInv at h2 ⊢
      rw [hsec, hsub] at h2
      simp only []
      obtain ⟨e1, e2, e3, e4, e5⟩ := h2
      refine ⟨e1, e2, ?_, ?_⟩
      · rw [subNumbersOkAux_append, e3, Bool.true_and,
          show 1 + sec.subsections.length = sec.subsections.length + 1 from by omega, e5]
        simp
      · simp only [List.length_append, List.length_cons, List.length_nil]
        omega

theorem numInv_startSectionCore (st1 : PState) (line : List Char) (h : NumInv st1) :
    NumInv (startSectionCore st1 line) := by
  obtain ⟨h1, h2⟩ := h
  unfold startSectionCore
  cases hsec : st1.currentSection with
  | none =>
    unfold SecInv at h2
    rw [hsec] at h2
    obtain ⟨e0, e1, e2, e3⟩ := h2
    refine ⟨h1, ?_⟩
    unfold SecInv
    simp only []
    exact ⟨by simp [e0, e1], by simp [e0, e1], rfl, by simpa using e3⟩
  | some sec =>
    unfold SecInv at h2
    rw [hsec] at h2
    obtain ⟨e1, e2, e3, _⟩ := h2
    constructor
    · rw [secNumbersOkAux_append, h1, Bool.true_and,
        show (1 : Nat) + st1.sections.length = st1.sections.length + 1 from by omega, e1]
      simp [e3, ← e1]
    · refine ⟨?_, ?_, rfl, rfl⟩
      · show st1.sectionCounter + 1 = (st1.sections ++ [sec]).length + 1
        simp only [List.length_append, List.length_cons, List.length_nil]
        omega
      · show st1.sectionCounter + 1 = (st1.sections ++ [sec]).length + 1
        simp only [List.length_append, List.length_cons, List.length_nil]
        omega

theorem numInv_startSection (st : PState) (line : List Char) (h : NumInv st) :
    NumInv (startSection st line) :=
  numInv_startSectionCore _ line (numInv_closeSubsection st h)

theorem closeSubsection_currentSection_some (st : PState) (sec : Section)
    (hsec : st.currentSection = some sec) :
    ∃ sec2, (closeSubsection st).currentSection = some sec2 := by
  unfold closeSubsection
  cases hsub : st.currentSubsection with
  | none => exact ⟨sec, hsec⟩
  | some sub =>
    rw [hsec]
    exact ⟨_, rfl⟩

theorem numInv_startSubsection (st : PState) (line : List Char) (h : NumInv st) :
    NumInv (startSubsection st line) := by
  unfold startSubsection
  cases hsec : st.currentSection with
  | none => exact h
  | some sec0 =>
    have hinv := numInv_closeSubsection st h
    obtain ⟨g1, g2⟩ := hinv
    obtain ⟨sec2, hsec2⟩ := closeSubsection_currentSection_some st sec0 hsec
    have hnone := closeSubsection_currentSubsection st
    unfold startSubsectionCore
    refine ⟨g1, ?_⟩
    unfold SecInv at g2 ⊢
    rw [hsec2, hnone] at g2
    simp only [hsec2]
    obtain ⟨f1, f2, f3, f4⟩ := g2
    refine ⟨f1, f2, f3, ?_, ?_⟩
    · omega
    · rw [f2, f1, f4]

theorem numInv_tableStep (st : PState) (line : List Char) (h : NumInv st) :
    NumInv (tableStep st line) := h

theorem numInv_classifyLine (f : List Char → FormattedLine) (st : PState) (line : List Char)
    (h : NumInv st) : NumInv (classifyLine f st line) := by
  unfold classifyLine
  by_cases h1 : isSectionHeader line = true
  · simp only [h1, if_true]
    exact numInv_startSection st line h
  · by_cases h2 : isSubsectionHeader line = true
    · simp only [h1, h2, if_false, if_true]
      exact numInv_startSubsection st line h
    · simp only [h1, h2, if_false]
      exact numInv_pushContent st _ h

theorem numInv_step (f : List Char → FormattedLine) (st : PState) (raw : List Char)
    (h : NumInv st) : NumInv (step f st raw) := by
  unfold step
  by_cases h0 : (jsTrim raw).isEmpty = true
  · simp only [h0, if_true]
    exact h
  · by_cases h1 : isTableRowB (jsTrim raw) = true
    · simp only [h0, h1, if_false, if_true]
      exact numInv_tableStep st _ h
    · simp only [h0, h1, if_false]
      exact numInv_classifyLine f _ _ (numInv_closeTable st h)

theorem numInv_foldl (f : List Char → FormattedLine) (ls : List (List Char)) (st : PState)
    (h : NumInv st) : NumInv (List.foldl (step f) st ls) := by
  induction ls generalizing st with
  | nil => exact h
  | cons a as ih => exact ih _ (numInv_step f st a h)

theorem numInv_initState : NumInv initState := by
  refine ⟨rfl, ?_⟩
  unfold SecInv
  exact ⟨rfl, rfl, rfl, rfl⟩

theorem numberingOk_finalize (st : PState) (h : NumInv st) :
    numberingOk (finalize st) = true := by
  have hinv := numInv_closeSubsection _ (numInv_closeTable st h)
  obtain ⟨g1, g2⟩ := hinv
  show numberingOk
      (match (closeSubsection (closeTable st)).currentSection with
       | some sec => (closeSubsection (closeTable st)).sections ++ [sec]
       | none => (closeSubsection (closeTable st)).sections) = true
  cases hsec : (closeSubsection (closeTable st)).currentSection with
  | none => exact g1
  | some sec =>
    unfold SecInv at g2
    rw [hsec] at g2
    obtain ⟨f1, f2, f3, _⟩ := g2
    unfold numberingOk
    rw [secNumbersOkAux_append, g1, Bool.true_and,
      show (1 : Nat) + (closeSubsection (closeTable st)).sections.length =
        (closeSubsection (closeTable st)).sections.length + 1 from by omega, f1]
    simp [f3, ← f1]

theorem numberingOk_parseContentWith (f : List Char → FormattedLine) (c : Option (List Char)) :
    numberingOk (parseContentWith f c) = true := by
  cases c with
  | none => rfl
  | some s =>
    by_cases h : s.isEmpty
    · simp [parseContentWith, h, numberingOk, secNumbersOkAux]
    · have e1 : parseContentWith f (some s) =
          finalize (List.foldl (step f) initState (splitOnChar '\n' s)) := by
        simp [parseContentWith, h]
      rw [e1]
      exact numberingOk_finalize _ (numInv_foldl f _ _ numInv_initState)



theorem getSectionType_eq_spec (l : List Char) : getSectionType l = specSectionType l := by
  unfold getSectionType specSectionType keywordTable
  simp only [List.find?, List.any_cons, List.any_nil, Bool.or_false]
  by_cases h1 : containsSub ['r', 'e', 'q', 'u', 'i', 'r', 'e', 'm', 'e', 'n', 't'] (toLowerL l) = true
  · simp [h1]
  ·
    by_cases h2 : containsSub ['f', 'u', 'n', 'c', 't', 'i', 'o', 'n', 'a', 'l'] (toLowerL l) = true
    · simp [h1, h2]
    ·
      by_cases h3 : containsSub ['s', 'e', 'c', 'u', 'r', 'i', 't', 'y'] (toLowerL l) = true
      · simp [h1, h2, h3]
      ·
        by_cases h4 : containsSub ['a', 'u', 't', 'h', 'e', 'n', 't', 'i', 'c', 'a', 't', 'i', 'o', 'n'] (toLowerL l) = true
        · simp [h1, h2, h3, h4]
        ·
          by_cases h5 : containsSub ['p', 'e', 'r', 'f', 'o', 'r', 'm', 'a', 'n', 'c', 'e'] (toLowerL l) = true
          · simp [h1, h2, h3, h4, h5]
          ·
            by_cases h6 : containsSub ['s', 'c', 'a', 'l', 'a', 'b', 'i', 'l', 'i', 't', 'y'] (toLowerL l) = true
            · simp [h1, h2, h3, h4, h5, h6]
            ·
              by_cases h7 : containsSub ['i', 'n', 't', 'e', 'r', 'f', 'a', 'c', 'e'] (toLowerL l) = true
              · simp [h1, h2, h3, h4, h5, h6, h7]
              ·
                by_cases h8 : containsSub ['u', 'i'] (toLowerL l) = true
                · simp [h1, h2, h3, h4, h5, h6, h7, h8]
                ·
                  by_cases h9 : containsSub ['u', 's', 'e', 'r'] (toLowerL l) = true
                  · simp [h1, h2, h3, h4, h5, h6, h7, h8, h9]
                  ·
                    by_cases h10 : containsSub ['d', 'a', 't', 'a'] (toLowerL l) = true
                    · simp [h1, h2, h3, h4, h5, h6, h7, h8, h9, h10]
                    ·
                      by_cases h11 : containsSub ['d', 'a', 't', 'a', 'b', 'a', 's', 'e'] (toLowerL l) = true
                      · simp [h1, h2, h3, h4, h5, h6, h7, h8, h9, h10, h11]
                      ·
                        by_cases h12 : containsSub ['i', 'n', 't', 'e', 'g', 'r', 'a', 't', 'i', 'o', 'n'] (toLowerL l) = true
                        · simp [h1, h2, h3, h4, h5, h6, h7, h8, h9, h10, h11, h12]
                        ·
                          by_cases h13 : containsSub ['a', 'p', 'i'] (toLowerL l) = true
                          · simp [h1, h2, h3, h4, h5, h6, h7, h8, h9, h10, h11, h12, h13]
                          ·
                            by_cases h14 : containsSub ['a', 's', 's', 'u', 'm', 'p', 't', 'i', 'o', 'n'] (toLowerL l) = true
                            · simp [h1, h2, h3, h4, h5, h6, h7, h8, h9, h10, h11, h12, h13, h14]
                            ·
                              by_cases h15 : containsSub ['c', 'o', 'n', 's', 't', 'r', 'a', 'i', 'n', 't'] (toLowerL l) = true
                              · simp [h1, h2, h3, h4, h5, h6, h7, h8, h9, h10, h11, h12, h13, h14, h15]
                              ·
                                simp [h1, h2, h3, h4, h5, h6, h7, h8, h9, h10, h11, h12, h13, h14, h15]



theorem closeTable_currentTable (st : PState) : (closeTable st).currentTable = none := by
  unfold closeTable
  cases htbl : st.currentTable with
  | none => simpa using htbl
  | some tbl => rfl

theorem closeTable_of_none (st : PState) (h : st.currentTable = none) : closeTable st = st := by
  unfold closeTable
  rw [h]

theorem pushContent_sections (st : PState) (item : ContentItem) :
    (pushContent st item).sections = st.sections := by
  unfold pushContent
  cases st.currentSubsection with
  | some sub => rfl
  | none => cases st.currentSection with
    | some sec => rfl
    | none => rfl

theorem closeTable_sections (st : PState) : (closeTable st).sections = st.sections := by
  unfold closeTable
  cases st.currentTable with
  | none => rfl
  | some tbl =>
    show (pushContent st (ContentItem.table tbl)).sections = st.sections
    exact pushContent_sections st _

theorem closeTable_currentSection_none (st : PState) (h : st.currentSection = none) :
    (closeTable st).currentSection = none := by
  unfold closeTable
  cases st.currentTable with
  | none => exact h
  | some tbl =>
    show (pushContent st (ContentItem.table tbl)).currentSection = none
    unfold pushContent
    cases st.currentSubsection with
    | some sub => exact h
    | none => simp [h]

theorem closeTable_currentSubsection_none (st : PState) (h : st.currentSubsection = none) :
    (closeTable st).currentSubsection = none := by
  unfold closeTable
  cases st.currentTable with
  | none => exact h
  | some tbl =>
    show (pushContent st (ContentItem.table tbl)).currentSubsection = none
    unfold pushContent
    rw [h]
    cases st.currentSection with
    | some sec => rfl
    | none => exact h

theorem isSectionHeader_of_hash3 (l : List Char) (h : isPrefixL "###".toList l = true) :
    isSectionHeader l = true := by
  obtain ⟨t, rfl⟩ := (isPrefixL_iff _ _).mp h
  unfold isSectionHeader
  simp [isPrefixL]

theorem isEmpty_false_of_hash3 (l : List Char) (h : isPrefixL "###".toList l = true) :
    l.isEmpty = false := by
  obtain ⟨t, rfl⟩ := (isPrefixL_iff _ _).mp h
  rfl

theorem isTableRowB_isEmpty_false (l : List Char) (h : isTableRowB l = true) :
    l.isEmpty = false := by
  cases l with
  | nil => simp [isTableRowB, containsSub, isPrefixL] at h
  | cons c cs => rfl

theorem startSectionCore_spec (st1 : PState) (line : List Char) :
    ∃ sec, (startSectionCore st1 line).currentSection = some sec ∧
      sec.title = removeStars (stripHashes line) ∧ sec.type = getSectionType line ∧
      sec.subsections = [] ∧ sec.content = [] ∧
      (startSectionCore st1 line).currentSubsection = none := by
  unfold startSectionCore
  cases st1.currentSection with
  | none => exact ⟨_, rfl, rfl, rfl, rfl, rfl, rfl⟩
  | some sec => exact ⟨_, rfl, rfl, rfl, rfl, rfl, rfl⟩

theorem finalize_closeTable (st : PState) : finalize (closeTable st) = finalize st := by
  unfold finalize
  rw [closeTable_of_none (closeTable st) (closeTable_currentTable st)]


theorem closeTable_dropped (st : PState) (hsub : st.currentSubsection = none)
    (hsec : st.currentSection = none) :
    closeTable st = { st with currentTable := none } := by
  cases htbl : st.currentTable with
  | none =>
    rw [closeTable_of_none st htbl, ← htbl]
  | some tbl =>
    unfold closeTable
    rw [htbl]
    show { pushContent st (ContentItem.table tbl) with currentTable := none } = _
    rw [pushContent_of_none st _ hsub hsec]



/-! ### Claim theorems -/

/-- C1: the claim says the line `REQ-42: Must support SSO`, appearing while a
section is open and not as a table row, is classified as a `requirement`
content item.  False: the line contains `:` and is shorter than 100
characters, so the subsection-header branch captures it first; the parse
result holds it as a Subsection and contains no content item at all. -/
theorem C1_counterexample :
    parseContentP (some "## Requirements\nREQ-42: Must support SSO".toList) =
      [{ id := "section-1".toList, title := "Requirements".toList, type := "requirements",
         number := 1, content := [],
         subsections := [{ id := "subsection-1-1".toList,
                           title := "REQ-42 Must support SSO".toList,
                           number := "1.1".toList, content := [] }] }] ∧
    (parseContentP (some "## Requirements\nREQ-42: Must support SSO".toList)).all
      (fun sec => sec.content.isEmpty &&
        sec.subsections.all (fun sub => sub.content.isEmpty)) = true := by
  constructor
  · decide
  · decide

/-- C1 amended: `REQ-42: Must support SSO` (with the colon) becomes a
Subsection titled `REQ-42 Must support SSO`; a requirement content item with
id `REQ-42` and content `Must support SSO` is produced only when the line
reaches content classification, e.g. for the colon-free
`REQ-42 Must support SSO`. -/
theorem C1_amended :
    parseContentP (some "## Requirements\nREQ-42: Must support SSO".toList) =
      [{ id := "section-1".toList, title := "Requirements".toList, type := "requirements",
         number := 1, content := [],
         subsections := [{ id := "subsection-1-1".toList,
                           title := "REQ-42 Must support SSO".toList,
                           number := "1.1".toList, content := [] }] }] ∧
    parseContentP (some "## Requirements\nREQ-42 Must support SSO".toList) =
      [{ id := "section-1".toList, title := "Requirements".toList, type := "requirements",
         number := 1,
         content := [ContentItem.line
           { type := "requirement", content := "Must support SSO".toList,
             id := some "REQ-42".toList, number := none }],
         subsections := [] }] := by
  constructor
  · decide
  · decide

/-- C3: `parseContent` never throws (the Option-threaded model, in which the
two guarded `match(...)[0]` dereferences may fail, always returns `some` of
the total model's value), and parsing null or the empty string yields `[]`. -/
theorem C3_never_throws :
    (∀ c : Option (List Char), parseContentPT c = some (parseContentP c)) ∧
    parseContentP none = [] ∧ parseContentP (some "".toList) = [] :=
  ⟨parseContentPT_eq, rfl, rfl⟩

/-- C4: the five-line Metrics table input produces exactly one Section titled
"Metrics" with exactly one table item, headers `["Name","Value"]`, rows
`[["Latency","200ms"],["Throughput","500rps"]]`; the separator row appears
only in `rawContent`, neither as header nor as data. -/
theorem C4_table_roundtrip :
    parseContentP (some
        "## Metrics\n| Name | Value |\n|------|-------|\n| Latency | 200ms |\n| Throughput | 500rps |".toList) =
      [{ id := "section-1".toList, title := "Metrics".toList, type := "general", number := 1,
         content := [ContentItem.table
           { headers := ["Name".toList, "Value".toList],
             rows := [["Latency".toList, "200ms".toList],
                      ["Throughput".toList, "500rps".toList]],
             rawContent := ["| Name | Value |".toList, "|------|-------|".toList,
                            "| Latency | 200ms |".toList, "| Throughput | 500rps |".toList] }],
         subsections := [] }] := by
  decide

/-- C5: the claim says the keyword order is requirements, security,
performance, interface, data, integration, assumptions (first match wins) AND
that `## Security Requirements` yields "security".  The latter contradicts the
order: the title contains "requirement", which matches first, so the parse
yields sectionType "requirements", not "security". -/
theorem C5_counterexample :
    parseContentP (some "## Security Requirements".toList) =
      [{ id := "section-1".toList, title := "Security Requirements".toList,
         type := "requirements", number := 1, content := [], subsections := [] }] ∧
    getSectionType "## Security Requirements".toList ≠ "security" := by
  constructor
  · decide
  · decide

/-- C5 amended: sectionType is the first keyword match in the fixed order
requirements, security, performance, interface, data, integration,
assumptions, defaulting to "general" (proved as equality with the ordered
dispatch-table reading `specSectionType`); `## Security Requirements` yields
"requirements" because the requirements keyword matches first, and
`## Misc Notes` yields "general". -/
theorem C5_amended :
    (∀ l : List Char, getSectionType l = specSectionType l) ∧
    getSectionType "## Security Requirements".toList = "requirements" ∧
    getSectionType "## Misc Notes".toList = "general" :=
  ⟨getSectionType_eq_spec, by decide, by decide⟩

/-- C6: the claim says the two formatter variants differ only on lines with
`**` markup.  False: an input with no `**` at all is already classified
differently (`- item` becomes `bullet`/"item" in one variant and
`bullet-list`/"- item" in the other). -/
theorem C6_counterexample :
    containsSub "**".toList "## S\n- item".toList = false ∧
    parseContentP (some "## S\n- item".toList) ≠ parseContentE (some "## S\n- item".toList) := by
  constructor
  · decide
  · decide

/-- C6 amended: the two parsers agree exactly up to skeletons (identical
section/subsection trees with identical titles, types, numbers and table
items, for every choice of content classifier), but the content-line
classifications differ beyond bold markup: the numbered/bullet type names and
stored content differ, only the Professional variant produces requirement
items, and only the Editable variant produces code-block and bold-text
items. -/
theorem C6_amended :
    (∀ (f g : List Char → FormattedLine) (c : Option (List Char)),
       skelSecs (parseContentWith f c) = skelSecs (parseContentWith g c)) ∧
    formatLineP "- item".toList = { type := "bullet", content := "item".toList } ∧
    formatLineE "- item".toList = { type := "bullet-list", content := "- item".toList } ∧
    formatLineP "1. step".toList =
      { type := "numbered", content := "step".toList, number := some "1".toList } ∧
    formatLineE "1. step".toList = { type := "numbered-list", content := "1. step".toList } ∧
    formatLineP "REQ-7 Export".toList =
      { type := "requirement", content := "Export".toList, id := some "REQ-7".toList } ∧
    formatLineE "REQ-7 Export".toList = { type := "text", content := "REQ-7 Export".toList } ∧
    formatLineP "```js".toList = { type := "text", content := "```js".toList } ∧
    formatLineE "```js".toList = { type := "code-block", content := "```js".toList } ∧
    formatLineP "a **b** c".toList = { type := "text", content := "a **b** c".toList } ∧
    formatLineE "a **b** c".toList = { type := "bold-text", content := "a **b** c".toList } :=
  ⟨parseContentWith_skel, by decide, by decide, by decide, by decide, by decide, by decide,
    by decide, by decide, by decide, by decide⟩

/-- C8: `parseContent` is deterministic and pure: the embedding is a function
of the input string alone (all loop state is initialised afresh inside every
invocation), so equal inputs give structurally identical trees. -/
theorem C8_deterministic (t1 t2 : Option (List Char)) (h : t1 = t2) :
    parseContentP t1 = parseContentP t2 :=
  congrArg parseContentP h

theorem C8_deterministic_witness :
    parseContentP (some "## A\ntext".toList) = parseContentP (some "## A\ntext".toList) :=
  C8_deterministic (some "## A\ntext".toList) (some "## A\ntext".toList) rfl

/-- C9: in every parse result (for either formatter variant and any input),
sections carry contiguous numbers 1, 2, 3, … in list order and the i-th
subsection of the section numbered n carries the number string "n.i",
restarting at "n.1" inside every new section; concretely, `## A ## B ## C`
yields numbers 1, 2, 3 in order, and a two-subsection section followed by a
fresh section numbers its subsections 1.1, 1.2, then 2.1. -/
theorem C9_numbering :
    (∀ (f : List Char → FormattedLine) (c : Option (List Char)),
       numberingOk (parseContentWith f c) = true) ∧
    parseContentP (some "## A\n## B\n## C".toList) =
      [{ id := "section-1".toList, title := "A".toList, type := "general", number := 1,
         content := [], subsections := [] },
       { id := "section-2".toList, title := "B".toList, type := "general", number := 2,
         content := [], subsections := [] },
       { id := "section-3".toList, title := "C".toList, type := "general", number := 3,
         content := [], subsections := [] }] ∧
    parseContentP (some "## A\nfoo: 1\nbar: 2\n## B\nbaz: 3".toList) =
      [{ id := "section-1".toList, title := "A".toList, type := "general", number := 1,
         content := [],
         subsections := [{ id := "subsection-1-1".toList, title := "foo 1".toList,
                           number := "1.1".toList, content := [] },
                         { id := "subsection-1-2".toList, title := "bar 2".toList,
                           number := "1.2".toList, content := [] }] },
       { id := "section-2".toList, title := "B".toList, type := "general", number := 2,
         content := [],
         subsections := [{ id := "subsection-2-1".toList, title := "baz 3".toList,
                           number := "2.1".toList, content := [] }] }] :=
  ⟨numberingOk_parseContentWith, by decide, by decide⟩


/-- C2: the claim says a non-table, non-blank `###` line seen while a section
is open creates a new Subsection.  False: `###` lines start with `##`, so the
section-header branch (checked first) always captures them; `## A` followed by
`### B` yields two Sections and no subsection anywhere. -/
theorem C2_counterexample :
    parseContentP (some "## A\n### B".toList) =
      [{ id := "section-1".toList, title := "A".toList, type := "general", number := 1,
         content := [], subsections := [] },
       { id := "section-2".toList, title := "B".toList, type := "general", number := 2,
         content := [], subsections := [] }] := by
  decide

/-- C2 amended: a non-table line starting with `###` always opens a new
Section (it starts with `##`), never a Subsection; the subsection branch fires
only for other lines containing `:` with length under 100, and such a line
seen with no open section (and no open subsection) only drops the pending
table buffer — no orphan subsection is ever created. -/
theorem C2_amended :
    (∀ (f : List Char → FormattedLine) (st : PState) (raw : List Char),
       isPrefixL "###".toList (jsTrim raw) = true →
       isTableRowB (jsTrim raw) = false →
       step f st raw = startSection (closeTable st) (jsTrim raw) ∧
       ∃ sec, (step f st raw).currentSection = some sec ∧
         sec.title = removeStars (stripHashes (jsTrim raw)) ∧
         sec.subsections = [] ∧
         (step f st raw).currentSubsection = none) ∧
    (∀ (f : List Char → FormattedLine) (st : PState) (raw : List Char),
       st.currentSection = none → st.currentSubsection = none →
       (jsTrim raw).isEmpty = false →
       isTableRowB (jsTrim raw) = false →
       isSectionHeader (jsTrim raw) = false →
       isSubsectionHeader (jsTrim raw) = true →
       step f st raw = { st with currentTable := none }) := by
  constructor
  · intro f st raw h3 htab
    have hsh := isSectionHeader_of_hash3 _ h3
    have hne := isEmpty_false_of_hash3 _ h3
    have hstep : step f st raw = startSection (closeTable st) (jsTrim raw) := by
      unfold step classifyLine
      simp [hne, htab, hsh]
    refine ⟨hstep, ?_⟩
    obtain ⟨sec, hcs, ht, _, hsub0, _, hnone⟩ :=
      startSectionCore_spec (closeSubsection (closeTable st)) (jsTrim raw)
    refine ⟨sec, ?_, ht, hsub0, ?_⟩
    · rw [hstep]
      exact hcs
    · rw [hstep]
      exact hnone
  · intro f st raw hsec hsub hne htab hnsh hssh
    have hstep : step f st raw = startSubsection (closeTable st) (jsTrim raw) := by
      unfold step classifyLine
      simp [hne, htab, hnsh, hssh]
    rw [hstep]
    unfold startSubsection
    rw [closeTable_currentSection_none st hsec]
    exact closeTable_dropped st hsub hsec

theorem C2_amended_witness :
    (isPrefixL "###".toList (jsTrim "### B".toList) = true ∧
     isTableRowB (jsTrim "### B".toList) = false) ∧
    (step formatLineP initState "### B".toList =
       startSection (closeTable initState) (jsTrim "### B".toList) ∧
     ∃ sec, (step formatLineP initState "### B".toList).currentSection = some sec ∧
       sec.title = removeStars (stripHashes (jsTrim "### B".toList)) ∧
       sec.subsections = [] ∧
       (step formatLineP initState "### B".toList).currentSubsection = none) ∧
    step formatLineP initState "topic: x".toList = { initState with currentTable := none } :=
  ⟨⟨by decide, by decide⟩,
   C2_amended.1 formatLineP initState "### B".toList (by decide) (by decide),
   C2_amended.2 formatLineP initState "topic: x".toList rfl rfl (by decide) (by decide)
     (by decide) (by decide)⟩

/-- C7: the claim says every non-table-row line, blank lines included, closes
an open table buffer at that position.  False: blank lines are skipped before
the table-close check, so the buffer stays open across them — `|a|b|`, a blank
line, then `|c|d|` yields a single table whose rows merge across the blank,
and a step on a whitespace-only line leaves `currentTable` untouched. -/
theorem C7_counterexample :
    parseContentP (some "## S\n|a|b|\n\n|c|d|".toList) =
      [{ id := "section-1".toList, title := "S".toList, type := "general", number := 1,
         content := [ContentItem.table
           { headers := ["a".toList, "b".toList], rows := [["c".toList, "d".toList]],
             rawContent := ["|a|b|".toList, "|c|d|".toList] }],
         subsections := [] }] ∧
    (step formatLineP
        { sections := [], currentSection := none, currentSubsection := none,
          sectionCounter := 1, subsectionCounter := 1,
          currentTable := some { headers := ["a".toList], rows := [],
                                 rawContent := ["|a|".toList] } }
        "   ".toList).currentTable =
      some { headers := ["a".toList], rows := [], rawContent := ["|a|".toList] } := by
  constructor
  · decide
  · decide

/-- C7 amended: a blank (after trimming) line leaves the state — open table
buffer included — untouched; a non-blank non-table-row line first closes an
open buffer, appending the table item to the open subsection's content, else
to the open section's content, before the line itself is classified; and the
end-of-input flush closes the buffer the same way. -/
theorem C7_amended :
    (∀ (f : List Char → FormattedLine) (st : PState) (raw : List Char),
       (jsTrim raw).isEmpty = true → step f st raw = st) ∧
    (∀ (f : List Char → FormattedLine) (st : PState) (raw : List Char) (T : TableData),
       st.currentTable = some T → (jsTrim raw).isEmpty = false →
       isTableRowB (jsTrim raw) = false →
       step f st raw = classifyLine f (closeTable st) (jsTrim raw) ∧
       (closeTable st).currentTable = none ∧
       (∀ sub, st.currentSubsection = some sub →
         closeTable st = { st with
           currentSubsection := some
             { sub with content := sub.content ++ [ContentItem.table T] },
           currentTable := none }) ∧
       (st.currentSubsection = none → ∀ sec, st.currentSection = some sec →
         closeTable st = { st with
           currentSection := some
             { sec with content := sec.content ++ [ContentItem.table T] },
           currentTable := none })) ∧
    (∀ st : PState, finalize (closeTable st) = finalize st) := by
  refine ⟨?_, ?_, finalize_closeTable⟩
  · intro f st raw h
    unfold step
    simp [h]
  · intro f st raw T hT hne htab
    refine ⟨?_, closeTable_currentTable st, ?_, ?_⟩
    · unfold step
      simp [hne, htab]
    · intro sub hsub
      unfold closeTable
      rw [hT]
      show { pushContent st (ContentItem.table T) with currentTable := none } = _
      rw [pushContent_of_sub st sub _ hsub]
    · intro hsub sec hsec
      unfold closeTable
      rw [hT]
      show { pushContent st (ContentItem.table T) with currentTable := none } = _
      rw [pushContent_of_sec st sec _ hsub hsec]

theorem C7_amended_witness :
    (let stW : PState :=
      { sections := [],
        currentSection := some
          { id := "section-1".toList, title := "S".toList, type := "general",
            number := 1, content := [], subsections := [] },
        currentSubsection := none, sectionCounter := 1, subsectionCounter := 1,
        currentTable := some
          { headers := ["h".toList], rows := [], rawContent := ["|h|x|".toList] } }
     stW.currentTable =
        some { headers := ["h".toList], rows := [], rawContent := ["|h|x|".toList] } ∧
      (jsTrim "done".toList).isEmpty = false ∧
      isTableRowB (jsTrim "done".toList) = false ∧
      (step formatLineP stW "done".toList =
         classifyLine formatLineP (closeTable stW) (jsTrim "done".toList) ∧
       (closeTable stW).currentTable = none ∧
       (∀ sub, stW.currentSubsection = some sub →
         closeTable stW = { stW with
           currentSubsection := some
             { sub with content := sub.content ++
                 [ContentItem.table
                   { headers := ["h".toList], rows := [], rawContent := ["|h|x|".toList] }] },
           currentTable := none }) ∧
       (stW.currentSubsection = none → ∀ sec, stW.currentSection = some sec →
         closeTable stW = { stW with
           currentSection := some
             { sec with content := sec.content ++
                 [ContentItem.table
                   { headers := ["h".toList], rows := [], rawContent := ["|h|x|".toList] }] },
           currentTable := none }))) :=
  ⟨rfl, by decide, by decide,
   C7_amended.2.1 formatLineP _ "done".toList
     { headers := ["h".toList], rows := [], rawContent := ["|h|x|".toList] }
     rfl (by decide) (by decide)⟩

/-- C10: every table row containing `---` anywhere — separator rows, data rows
arriving after the header row is set, and rows whose cell text merely contains
`---` — is appended to the table buffer's `rawContent` but leaves both
`headers` and `rows` unchanged (and the rest of the state untouched). -/
theorem C10_separator_rows (f : List Char → FormattedLine) (st : PState) (raw : List Char)
    (h1 : isTableRowB (jsTrim raw) = true)
    (h2 : containsSub "---".toList (jsTrim raw) = true) :
    ∃ T1, (step f st raw).currentTable = some T1 ∧
      T1.headers = (st.currentTable.getD { headers := [], rows := [], rawContent := [] }).headers ∧
      T1.rows = (st.currentTable.getD { headers := [], rows := [], rawContent := [] }).rows ∧
      T1.rawContent =
        (st.currentTable.getD { headers := [], rows := [], rawContent := [] }).rawContent ++
          [jsTrim raw] ∧
      (step f st raw).sections = st.sections ∧
      (step f st raw).currentSection = st.currentSection ∧
      (step f st raw).currentSubsection = st.currentSubsection := by
  have hne := isTableRowB_isEmpty_false _ h1
  have hstep : step f st raw = tableStep st (jsTrim raw) := by
    unfold step
    simp [hne, h1]
  rw [hstep]
  unfold tableStep tableUpd
  simp only [h2, if_true]
  exact ⟨_, rfl, rfl, rfl, rfl, trivial, trivial, trivial⟩

theorem C10_separator_rows_witness :
    (let stW : PState :=
      { sections := [], currentSection := none, currentSubsection := none,
        sectionCounter := 1, subsectionCounter := 1,
        currentTable := some
          { headers := ["p".toList, "q".toList], rows := [["u".toList, "v".toList]],
            rawContent := ["|p|q|".toList, "|u|v|".toList] } }
     isTableRowB (jsTrim "| a---b | c |".toList) = true ∧
      containsSub "---".toList (jsTrim "| a---b | c |".toList) = true ∧
      (∃ T1, (step formatLineP stW "| a---b | c |".toList).currentTable = some T1 ∧
        T1.headers =
          (stW.currentTable.getD { headers := [], rows := [], rawContent := [] }).headers ∧
        T1.rows =
          (stW.currentTable.getD { headers := [], rows := [], rawContent := [] }).rows ∧
        T1.rawContent =
          (stW.currentTable.getD { headers := [], rows := [], rawContent := [] }).rawContent ++
            [jsTrim "| a---b | c |".toList] ∧
        (step formatLineP stW "| a---b | c |".toList).sections = stW.sections ∧
        (step formatLineP stW "| a---b | c |".toList).currentSection = stW.currentSection ∧
        (step formatLineP stW "| a---b | c |".toList).currentSubsection =
          stW.currentSubsection)) :=
  ⟨by decide, by decide,
   C10_separator_rows formatLineP _ "| a---b | c |".toList (by decide) (by decide)⟩


end BA
